import Mathlib

/-
  Shallow embedding of the taskmaster backend core:
  task status transitions, permission predicates, project membership
  operations and the activity log side effects, translated from
  tasks/models.py, tasks/serializers.py, tasks/views.py,
  tasks/permissions.py and tasks/signals.py.

  Users, projects, tasks and comments are identified by natural-number
  primary keys, as in the Django ORM (AutoField keys are always >= 1;
  hypotheses of the form `uid ~= 0` record Python truthiness checks on
  ids).  The persisted store is a record of lists; every mutating
  endpoint is a function from a store to a store plus an optional
  tagged error, returning the store unchanged on every error path,
  exactly as the corresponding view does.
-/

namespace Taskmaster

/-- A row of django.contrib.auth.models.User (the fields this core reads). -/
structure User where
  id : Nat
  username : String
deriving Repr, DecidableEq

/-- A row of tasks.models.Project: created_by is a user id, team_members
the m2m set of user ids. -/
structure Project where
  id : Nat
  projectName : String
  createdBy : Nat
  teamMembers : List Nat
deriving Repr, DecidableEq

/-- A row of tasks.models.Task (the fields the claims touch). -/
structure Task where
  id : Nat
  title : String
  projectId : Nat
  createdBy : Nat
  assignedTo : Option Nat
  status : String
  priority : String
deriving Repr, DecidableEq

/-- A row of tasks.models.Comment. -/
structure Comment where
  id : Nat
  taskId : Nat
  userId : Nat
  text : String
deriving Repr, DecidableEq

/-- A row of tasks.models.Activity: project, user (a user id), action,
details. Append-only in this embedding, as in the code. -/
structure Activity where
  projectId : Nat
  userId : Nat
  action : String
  details : String
deriving Repr, DecidableEq

/-- The persisted store. -/
structure St where
  users : List User
  projects : List Project
  tasks : List Task
  comments : List Comment
  activities : List Activity
deriving Repr, DecidableEq

/-- Errors surfaced by the endpoints.  validationError covers DRF
serializer ValidationError responses (HTTP 400), invalidTransition is the
ValidationError raised by TaskStatusSerializer.validate_status with its
deterministic message template, invalidOperation the direct 400 response
of remove_member, doesNotExist an ORM DoesNotExist exception escaping
uncaught (HTTP 500). -/
inductive TmError where
  | forbidden (msg : String)
  | notFound (msg : String)
  | invalidOperation (msg : String)
  | validationError (msg : String)
  | invalidTransition (src dst : String)
  | doesNotExist (model : String)
deriving Repr, DecidableEq

/-- Outcome of a mutating endpoint: optional error plus resulting store. -/
structure OpResult where
  err : Option TmError
  st : St
deriving Repr, DecidableEq

/-- Keys of Task.STATUS_CHOICES in tasks/models.py.  The second entry is
spelled IN_PROGESS in the source (its display label is In Progress). -/
def statusChoices : List String := ["TODO", "IN_PROGESS", "IN_REVIEW", "DONE"]

/-- Keys of Task.PRIORITY_CHOICES in tasks/models.py. -/
def priorityChoices : List String := ["LOW", "MEDIUM", "HIGH", "URGENT"]

/-- The allowed_transition dict of TaskStatusSerializer.validate_status,
with the .get(current, []) default. -/
def allowedTransition (current : String) : List String :=
  if current == "TODO" then ["IN_PROGRESS"]
  else if current == "IN_PROGRESS" then ["IN_REVIEW", "TODO"]
  else if current == "IN_REVIEW" then ["DONE", "IN_PROGRESS"]
  else if current == "DONE" then ["IN_PROGRESS"]
  else []

/-- DRF ChoiceField.to_internal_value: accept the value when it is one of
the declared choice keys, otherwise raise the stock ValidationError. -/
def choiceValidate (choices : List String) (value : String) : Except TmError String :=
  if choices.contains value then .ok value
  else .error (.validationError ("\"" ++ value ++ "\" is not a valid choice."))

/-- TaskStatusSerializer validation of a proposed status: the ChoiceField
check (against Task.STATUS_CHOICES) runs first, then validate_status
checks the transition table. -/
def taskStatusValidate (current value : String) : Except TmError String :=
  match choiceValidate statusChoices value with
  | .error e => .error e
  | .ok v =>
    if (allowedTransition current).contains v then .ok v
    else .error (.invalidTransition current v)

/-- User.objects.get(id=uid) as an Option. -/
def findUser (st : St) (uid : Nat) : Option User :=
  st.users.find? (fun u => u.id == uid)

/-- Whether a user row with this id exists. -/
def userExists (st : St) (uid : Nat) : Bool :=
  (findUser st uid).isSome

/-- Username of an existing user id (empty for a dangling id, which the
call sites never produce). -/
def usernameOf (st : St) (uid : Nat) : String :=
  match findUser st uid with
  | some u => u.username
  | none => ""

/-- Project.objects.get(id=pid) as an Option. -/
def findProject (st : St) (pid : Nat) : Option Project :=
  st.projects.find? (fun p => p.id == pid)

/-- Task.objects.get(id=tid) as an Option. -/
def findTask (st : St) (tid : Nat) : Option Task :=
  st.tasks.find? (fun t => t.id == tid)

/-- Replace the project row with the given id. -/
def updProjects (l : List Project) (pid : Nat) (f : Project → Project) : List Project :=
  l.map (fun p => if p.id == pid then f p else p)

/-- Replace the task row with the given id. -/
def updTasks (l : List Task) (tid : Nat) (f : Task → Task) : List Task :=
  l.map (fun t => if t.id == tid then f t else t)

/-- A fresh AutoField primary key. -/
def freshId (l : List Nat) : Nat := l.foldr max 0 + 1

/-- User.objects.filter(id__in=ids) projected to ids, in store order. -/
def existingIds (st : St) (ids : List Nat) : List Nat :=
  (st.users.filter (fun u => ids.contains u.id)).map (fun u => u.id)

/-- Activity emitted by signals.log_team_member_changes on post_add. -/
def addedActivity (st : St) (p : Project) (uid : Nat) : Activity :=
  ⟨p.id, p.createdBy, "added team member",
   usernameOf st uid ++ " was add to the project " ++ p.projectName⟩

/-- Activity emitted by signals.log_team_member_changes on post_remove. -/
def removedActivity (st : St) (p : Project) (uid : Nat) : Activity :=
  ⟨p.id, p.createdBy, "removed team member",
   usernameOf st uid ++ " removed from project " ++ p.projectName⟩

/-- Django m2m add: ids already present are filtered out before the rows
are inserted and before the m2m_changed post_add signal fires, so the
log_team_member_changes receiver sees only genuinely new members, and it
skips the project creator. -/
def teamAdd (st : St) (p : Project) (ids : List Nat) : Project × List Activity :=
  let missing := ids.filter (fun u => !(p.teamMembers.contains u))
  ({ p with teamMembers := p.teamMembers ++ missing },
   missing.filterMap (fun u =>
     if u == p.createdBy then none else some (addedActivity st p u)))

/-- Django m2m remove: the post_remove signal receives every requested id,
whether or not it was a member, so log_team_member_changes records one
removal entry per requested id. -/
def teamRemove (st : St) (p : Project) (ids : List Nat) : Project × List Activity :=
  ({ p with teamMembers := p.teamMembers.filter (fun m => !(ids.contains m)) },
   ids.map (fun u => removedActivity st p u))

/-- ProjectCreateUpdateSerializer.create: create the project with
created_by = the requesting user.  Project.save adds the creator to
team_members (the add_creator_to_team post_save receiver does the same,
idempotently); the post_add signal for that implicit add skips the
creator, so no added-member entry is emitted for it.
log_project_creation emits the created-project entry, then the requested
team_member_ids (filtered to existing users) are added. -/
def createProject (st : St) (actor : Nat) (name : String) (memberIds : List Nat) : OpResult :=
  let pid := freshId (st.projects.map (fun p => p.id))
  let p0 : Project := ⟨pid, name, actor, [actor]⟩
  let createdAct : Activity :=
    ⟨pid, actor, "created project", "Project \"" ++ name ++ "\" was created"⟩
  let pair := teamAdd st p0 (existingIds st memberIds)
  ⟨none, { st with projects := st.projects ++ [pair.1],
                   activities := st.activities ++ [createdAct] ++ pair.2 }⟩

/-- ProjectViewSet update / partial_update: the queryset is restricted to
projects whose team contains the requester (404 otherwise) and
IsProjectCreator denies non-creators.  ProjectCreateUpdateSerializer.update
then updates the name and, when team_member_ids is given, does
team_members.set(existing users) followed by team_members.add(created_by);
set removes then adds, each firing its m2m signal. -/
def updateProject (st : St) (actor pid : Nat)
    (name : Option String) (memberIds : Option (List Nat)) : OpResult :=
  match findProject st pid with
  | none => ⟨some (.notFound "No Project matches the given query."), st⟩
  | some p =>
    if !(p.teamMembers.contains actor) then
      ⟨some (.notFound "No Project matches the given query."), st⟩
    else if actor != p.createdBy then
      ⟨some (.forbidden "You do not have permission to perform this action."), st⟩
    else
      let p1 := { p with projectName := name.getD p.projectName }
      match memberIds with
      | none => ⟨none, { st with projects := updProjects st.projects pid (fun _ => p1) }⟩
      | some ids =>
        let newIds := existingIds st ids
        let removeIds := p1.teamMembers.filter (fun m => !(newIds.contains m))
        let pairR := teamRemove st p1 removeIds
        let pairA := teamAdd st pairR.1 newIds
        let pairC := teamAdd st pairA.1 [p.createdBy]
        ⟨none, { st with projects := updProjects st.projects pid (fun _ => pairC.1),
                         activities := st.activities ++ pairR.2 ++ pairA.2 ++ pairC.2 }⟩

/-- ProjectViewSet.add_member: queryset membership (404), creator-only
check (403), user_id required (400, Python truthiness), user lookup (404),
then m2m add of one user with its signal. -/
def addMember (st : St) (actor pid uid : Nat) : OpResult :=
  match findProject st pid with
  | none => ⟨some (.notFound "No Project matches the given query."), st⟩
  | some p =>
    if !(p.teamMembers.contains actor) then
      ⟨some (.notFound "No Project matches the given query."), st⟩
    else if actor != p.createdBy then
      ⟨some (.forbidden "Only project creator can add members"), st⟩
    else if uid == 0 then
      ⟨some (.validationError "user_id is required"), st⟩
    else if !(userExists st uid) then
      ⟨some (.notFound "User not found"), st⟩
    else
      let pair := teamAdd st p [uid]
      ⟨none, { st with projects := updProjects st.projects pid (fun _ => pair.1),
                       activities := st.activities ++ pair.2 }⟩

/-- ProjectViewSet.remove_member: queryset membership (404), creator-only
check (403), user_id required (400), the creator-id guard (400, before the
user lookup), user lookup (404), then m2m remove of one user with its
signal. -/
def removeMember (st : St) (actor pid uid : Nat) : OpResult :=
  match findProject st pid with
  | none => ⟨some (.notFound "No Project matches the given query."), st⟩
  | some p =>
    if !(p.teamMembers.contains actor) then
      ⟨some (.notFound "No Project matches the given query."), st⟩
    else if actor != p.createdBy then
      ⟨some (.forbidden "Only project creator can remove members"), st⟩
    else if uid == 0 then
      ⟨some (.validationError "user_id is required"), st⟩
    else if uid == p.createdBy then
      ⟨some (.invalidOperation "Cannot remove project creator"), st⟩
    else if !(userExists st uid) then
      ⟨some (.notFound "User not found"), st⟩
    else
      let pair := teamRemove st p [uid]
      ⟨none, { st with projects := updProjects st.projects pid (fun _ => pair.1),
                       activities := st.activities ++ pair.2 }⟩

/-- The TaskViewSet actions whose dispatch TaskViewSet.get_permissions
distinguishes: update, partial_update and destroy go through
CanModifyTask; every other action (assign, unassign, change_status, ...)
goes through IsTaskProjectMember. -/
inductive TaskAction where
  | updateAct
  | patchAct
  | destroyAct
  | assignAct
  | unassignAct
  | statusAct
deriving Repr, DecidableEq

/-- permissions.CanModifyTask write branch: task creator, assignee or
project creator. -/
def canModifyTask (t : Task) (p : Project) (uid : Nat) : Bool :=
  uid == t.createdBy || t.assignedTo == some uid || uid == p.createdBy

/-- permissions.IsTaskProjectMember: member of the owning project. -/
def isTaskProjectMember (p : Project) (uid : Nat) : Bool :=
  p.teamMembers.contains uid

/-- Membership of the action in the list that TaskViewSet.get_permissions
routes through CanModifyTask: update, partial_update, destroy. -/
def isWriteCoreAct : TaskAction → Bool
  | .updateAct => true
  | .patchAct => true
  | .destroyAct => true
  | .assignAct => false
  | .unassignAct => false
  | .statusAct => false

/-- Object access for a TaskViewSet action: get_object draws from a
queryset filtered to tasks of projects the requester belongs to (404 for
everyone else), then the per-action permission class from get_permissions
runs (CanModifyTask only for update, partial_update, destroy; plain
IsTaskProjectMember for every other action). -/
def taskAccess (st : St) (actor tid : Nat) (act : TaskAction) :
    Except TmError (Task × Project) :=
  match findTask st tid with
  | none => .error (.notFound "No Task matches the given query.")
  | some t =>
    match findProject st t.projectId with
    | none => .error (.notFound "No Task matches the given query.")
    | some p =>
      if !(isTaskProjectMember p actor) then
        .error (.notFound "No Task matches the given query.")
      else if isWriteCoreAct act then
        if canModifyTask t p actor then .ok (t, p)
        else .error (.forbidden "You do not have permission to perform this action.")
      else .ok (t, p)

/-- Write-only inputs of TaskCreateUpdateSerializer.  A none field was not
part of the request (or was an explicit null for assigned_to_id, which the
serializer treats identically: validated_data.pop collapses both). -/
structure TaskUpdateAttrs where
  title : Option String
  projectId : Option Nat
  assignedToId : Option Nat
  status : Option String
  priority : Option String
deriving Repr, DecidableEq

/-- TaskCreateUpdateSerializer.validate_project_id, run only when the
field is present: the project must exist and the requester must be one of
its team members. -/
def validateProjectIdField (st : St) (actor : Nat) :
    Option Nat → Except TmError Unit
  | none => .ok ()
  | some pid =>
    match findProject st pid with
    | none => .error (.validationError "Project not found")
    | some p =>
      if p.teamMembers.contains actor then .ok ()
      else .error (.validationError "You are not a member of this project")

/-- TaskCreateUpdateSerializer.validate_assigned_to_id: a provided id must
name an existing user. -/
def validateAssignedField (st : St) : Option Nat → Except TmError Unit
  | none => .ok ()
  | some uid =>
    if userExists st uid then .ok ()
    else .error (.validationError "User not found")

/-- ChoiceField validation of an optional write field. -/
def validateChoiceField (choices : List String) : Option String → Except TmError Unit
  | none => .ok ()
  | some s =>
    match choiceValidate choices s with
    | .ok _ => .ok ()
    | .error e => .error e

/-- TaskCreateUpdateSerializer.validate: when assigned_to_id is truthy it
fetches Project.objects.get(id=attrs.get(project_id)) — when project_id
was not part of the request this raises Project.DoesNotExist, which
nothing catches — and requires the assignee to be a team member of that
project. -/
def crossValidate (st : St) (projectId assignedToId : Option Nat) :
    Except TmError Unit :=
  match assignedToId with
  | none => .ok ()
  | some uid =>
    if uid == 0 then .ok ()
    else
      match projectId with
      | none => .error (.doesNotExist "Project")
      | some pid =>
        match findProject st pid with
        | none => .error (.doesNotExist "Project")
        | some p =>
          if p.teamMembers.contains uid then .ok ()
          else .error (.validationError "Assigned user must be a member of this project")

/-- Full TaskCreateUpdateSerializer validation pipeline: the field-level
validators in field declaration order, then the cross-field validate. -/
def taskAttrsValidate (st : St) (actor : Nat) (a : TaskUpdateAttrs) :
    Except TmError Unit := do
  validateProjectIdField st actor a.projectId
  validateAssignedField st a.assignedToId
  validateChoiceField statusChoices a.status
  validateChoiceField priorityChoices a.priority
  crossValidate st a.projectId a.assignedToId

/-- TaskCreateUpdateSerializer.update: plain fields fall back to the
instance value, the project changes only for a truthy project_id, and
assigned_to changes whenever assigned_to_id is not None. -/
def applyTaskAttrs (t : Task) (a : TaskUpdateAttrs) : Task :=
  let t1 := { t with title := a.title.getD t.title,
                     status := a.status.getD t.status,
                     priority := a.priority.getD t.priority }
  let t2 := match a.projectId with
            | some pid => if pid != 0 then { t1 with projectId := pid } else t1
            | none => t1
  match a.assignedToId with
  | some uid => { t2 with assignedTo := some uid }
  | none => t2

/-- TaskViewSet._log_task_changes: one entry per changed tracked field
(status, assigned_to, priority), attributed to the requesting user. -/
def logTaskChanges (st : St) (user : Nat) (old new : Task) : List Activity :=
  (if old.status != new.status then
     [⟨new.projectId, user, "changed task status",
       "Task " ++ new.title ++ " status changed from " ++ old.status ++ " to " ++ new.status⟩]
   else [])
  ++ (if old.assignedTo != new.assignedTo then
        match new.assignedTo with
        | some uid =>
          [⟨new.projectId, user, "assigned task",
            "Task " ++ new.title ++ " assigned to " ++ usernameOf st uid⟩]
        | none =>
          match old.assignedTo with
          | some _ => [⟨new.projectId, user, "unassigned task",
                        "Task " ++ new.title ++ " was unassigned"⟩]
          | none => []
      else [])
  ++ (if old.priority != new.priority then
        [⟨new.projectId, user, "changed task priority",
          "Task " ++ new.title ++ " priority changed from " ++ old.priority ++ " to " ++ new.priority⟩]
      else [])

/-- TaskCreateUpdateSerializer.create plus the log_task_activity post_save
receiver: validation as on update (project_id always present), then the
task is created with created_by = the requester and status/priority
defaulting to TODO/MEDIUM, and one created-task entry is logged with
user = created_by. -/
def createTask (st : St) (actor pid : Nat) (title : String)
    (assignedToId : Option Nat) (statusIn priorityIn : Option String) : OpResult :=
  match taskAttrsValidate st actor ⟨some title, some pid, assignedToId, statusIn, priorityIn⟩ with
  | .error e => ⟨some e, st⟩
  | .ok _ =>
    let tid := freshId (st.tasks.map (fun t => t.id))
    let t : Task := ⟨tid, title, pid, actor, assignedToId,
                     statusIn.getD "TODO", priorityIn.getD "MEDIUM"⟩
    ⟨none, { st with tasks := st.tasks ++ [t],
                     activities := st.activities ++
                       [⟨pid, actor, "created task", "Task \"" ++ title ++ "\" created"⟩] }⟩

/-- TaskViewSet update / partial_update with perform_update: object
access, serializer validation, field application, then the
_log_task_changes diff entries are appended. -/
def updateTask (st : St) (actor tid : Nat) (a : TaskUpdateAttrs) : OpResult :=
  match taskAccess st actor tid .updateAct with
  | .error e => ⟨some e, st⟩
  | .ok (t, _) =>
    match taskAttrsValidate st actor a with
    | .error e => ⟨some e, st⟩
    | .ok _ =>
      let t2 := applyTaskAttrs t a
      ⟨none, { st with tasks := updTasks st.tasks tid (fun _ => t2),
                       activities := st.activities ++ logTaskChanges st actor t t2 }⟩

/-- TaskViewSet.destroy: object access through CanModifyTask, then the
log_task_deletion pre_delete receiver appends one deleted-task entry with
user = the created_by of the task (not the requester), and the task row
and its comments are deleted; activities are untouched by the cascade. -/
def deleteTask (st : St) (actor tid : Nat) : OpResult :=
  match taskAccess st actor tid .destroyAct with
  | .error e => ⟨some e, st⟩
  | .ok (t, _) =>
    ⟨none, { st with tasks := st.tasks.filter (fun x => x.id != tid),
                     comments := st.comments.filter (fun c => c.taskId != tid),
                     activities := st.activities ++
                       [⟨t.projectId, t.createdBy, "deleted task",
                         "Task " ++ t.title ++ " was deleted"⟩] }⟩

/-- TaskViewSet.assign with TaskAssignSerializer: the user must exist and
be a member of the owning project, then assigned_to is set and one
assigned-task entry is logged with user = the requester. -/
def assignTask (st : St) (actor tid uid : Nat) : OpResult :=
  match taskAccess st actor tid .assignAct with
  | .error e => ⟨some e, st⟩
  | .ok (t, p) =>
    if !(userExists st uid) then
      ⟨some (.validationError "User does not exist"), st⟩
    else if !(p.teamMembers.contains uid) then
      ⟨some (.validationError "User must be a part of the project to assign a task"), st⟩
    else
      ⟨none, { st with tasks := updTasks st.tasks tid (fun x => { x with assignedTo := some uid }),
                       activities := st.activities ++
                         [⟨t.projectId, actor, "assigned task",
                           "Task " ++ t.title ++ " assigned to " ++ usernameOf st uid⟩] }⟩

/-- TaskViewSet.unassign: no validation; assigned_to is cleared and one
unassigned-task entry is logged with user = the requester. -/
def unassignTask (st : St) (actor tid : Nat) : OpResult :=
  match taskAccess st actor tid .unassignAct with
  | .error e => ⟨some e, st⟩
  | .ok (t, _) =>
    ⟨none, { st with tasks := updTasks st.tasks tid (fun x => { x with assignedTo := none }),
                     activities := st.activities ++
                       [⟨t.projectId, actor, "unassigned task",
                         "Task " ++ t.title ++ " unassigned from " ++
                           (match t.assignedTo with
                            | some uid => usernameOf st uid
                            | none => "None") ++ " to None"⟩] }⟩

/-- TaskViewSet.change_status: object access through IsTaskProjectMember,
TaskStatusSerializer validation, then the status is stored and one
changed-status entry is logged with user = the requester. -/
def changeStatusTask (st : St) (actor tid : Nat) (value : String) : OpResult :=
  match taskAccess st actor tid .statusAct with
  | .error e => ⟨some e, st⟩
  | .ok (t, _) =>
    match taskStatusValidate t.status value with
    | .error e => ⟨some e, st⟩
    | .ok v =>
      ⟨none, { st with tasks := updTasks st.tasks tid (fun x => { x with status := v }),
                       activities := st.activities ++
                         [⟨t.projectId, actor, "changed task status",
                           "Task " ++ t.title ++ " change from " ++ t.status ++ " to " ++ v⟩] }⟩

/-- CommentCreateSerializer and the log_comment post_save receiver: text
must be non-empty after strip, the task must exist, the requester must be
a member of its project; the comment stores the stripped text with
user = the requester and one added-comment entry is logged with
user = the comment author. -/
def createComment (st : St) (actor tid : Nat) (text : String) : OpResult :=
  if text.trim == "" then
    ⟨some (.validationError "Comment cannot be empty"), st⟩
  else
    match findTask st tid with
    | none => ⟨some (.validationError "Invalid pk"), st⟩
    | some t =>
      match findProject st t.projectId with
      | none => ⟨some (.validationError "Invalid pk"), st⟩
      | some p =>
        if !(p.teamMembers.contains actor) then
          ⟨some (.validationError "You do not have permission to comment on this task"), st⟩
        else
          let cid := freshId (st.comments.map (fun c => c.id))
          ⟨none, { st with comments := st.comments ++ [⟨cid, tid, actor, text.trim⟩],
                           activities := st.activities ++
                             [⟨t.projectId, actor, "added comment",
                               "Commented on task \"" ++ t.title ++ "\""⟩] }⟩

/-- The activity entries an operation appended: the suffix of the
resulting log past the entries that were already present. -/
def actsDelta (st : St) (r : OpResult) : List Activity :=
  r.st.activities.drop st.activities.length

/-- Whether every entry of a list of activities is attributed to the
given user id. -/
def allActor (l : List Activity) (u : Nat) : Bool :=
  l.all (fun x => x.userId == u)

/-- The Project invariant of the spec: every project team contains its
creator. -/
def projInvariantB (st : St) : Bool :=
  st.projects.all (fun p => p.teamMembers.contains p.createdBy)

/-- Store used as the counterexample for C2: project 1 is created by user
1 with team [1, 2]; task 1 was created by user 1 and is unassigned, so
user 2 is a team member who is neither the task creator, nor the
assignee, nor the project creator. -/
def stC2 : St :=
  ⟨[⟨1, "alice"⟩, ⟨2, "bob"⟩],
   [⟨1, "proj", 1, [1, 2]⟩],
   [⟨1, "tsk", 1, 1, none, "TODO", "MEDIUM"⟩],
   [], []⟩

/-- Store used by C5: project 1 has creator 1 and team [1, 2]; user 3
exists but is not a team member; task 1 lives in project 1. -/
def stC5 : St :=
  ⟨[⟨1, "alice"⟩, ⟨2, "bob"⟩, ⟨3, "carol"⟩],
   [⟨1, "proj", 1, [1, 2]⟩],
   [⟨1, "tsk", 1, 1, none, "TODO", "MEDIUM"⟩],
   [], []⟩

/-- Store used by the C4 witness. -/
def stC4W : St := ⟨[⟨1, "alice"⟩], [⟨1, "p1", 1, [1]⟩], [], [], []⟩

/-- Store used by the C3 witness. -/
def stC3W : St :=
  ⟨[⟨1, "alice"⟩, ⟨2, "bob"⟩], [⟨1, "p1", 1, [1, 2]⟩], [], [], []⟩

/-- Store used by the C7 witness. -/
def stC7W : St :=
  ⟨[⟨1, "alice"⟩, ⟨2, "bob"⟩], [⟨1, "p1", 1, [1, 2]⟩],
   [⟨1, "tsk", 1, 1, some 2, "TODO", "LOW"⟩], [],
   [⟨1, 1, "created task", "Task \"tsk\" created"⟩]⟩

/-- Store used as the counterexample for C9: the project creator is user
2, the task creator user 1. -/
def stC9 : St :=
  ⟨[⟨1, "alice"⟩, ⟨2, "bob"⟩], [⟨1, "proj", 2, [1, 2]⟩],
   [⟨1, "tsk", 1, 1, none, "TODO", "MEDIUM"⟩], [], []⟩

/-- Store used as the counterexample for C8: user 2 is already a team
member of project 1 and is not the creator. -/
def stC8 : St :=
  ⟨[⟨1, "alice"⟩, ⟨2, "bob"⟩], [⟨1, "proj", 1, [1, 2]⟩], [], [], []⟩

/-- Store used by the C8 witness: user 3 exists and is not yet a team
member of project 1. -/
def stC8W : St :=
  ⟨[⟨1, "alice"⟩, ⟨2, "bob"⟩, ⟨3, "carol"⟩], [⟨1, "p1", 1, [1, 2]⟩], [], [], []⟩

/-- Store used by the C6 witness. -/
def stC6W : St :=
  ⟨[⟨1, "alice"⟩, ⟨2, "bob"⟩], [⟨1, "p1", 1, [1, 2]⟩],
   [⟨1, "tsk", 1, 1, none, "TODO", "MEDIUM"⟩], [], []⟩

/-- Store used by the C10 witness. -/
def stC10W : St :=
  ⟨[⟨1, "alice"⟩], [⟨1, "p1", 1, [1]⟩],
   [⟨1, "tsk", 1, 1, none, "DONE", "LOW"⟩], [], []⟩

lemma actsDelta_keep (st : St) (e : Option TmError) : actsDelta st ⟨e, st⟩ = [] := by
  simp [actsDelta]

lemma actsDelta_append (st : St) (e : Option TmError) (st2 : St) (l : List Activity)
    (h : st2.activities = st.activities ++ l) : actsDelta st ⟨e, st2⟩ = l := by
  simp [actsDelta, h, List.drop_left]

lemma find?_upd_list (l : List Task) (tid : Nat) (g : Task → Task) (t : Task)
    (hid : (g t).id = t.id) :
    l.find? (fun x => x.id == tid) = some t →
    (l.map (fun x => if x.id == tid then g x else x)).find? (fun x => x.id == tid)
      = some (g t) := by
  induction l with
  | nil => intro h; simp at h
  | cons y ys ih =>
    intro h
    by_cases hy : (y.id == tid) = true
    · rw [List.find?_cons_of_pos (p := fun x : Task => x.id == tid) ys hy] at h
      have hyt : y = t := by simpa using h
      simp only [List.map_cons, if_pos hy]
      simp only [hyt]
      have hgt : ((fun x : Task => x.id == tid) (g t)) = true := by
        simp only [hid]
        rw [← hyt]
        exact hy
      exact List.find?_cons_of_pos (p := fun x : Task => x.id == tid) _ hgt
    · rw [List.find?_cons_of_neg (p := fun x : Task => x.id == tid) ys hy] at h
      simp only [List.map_cons, if_neg hy]
      rw [List.find?_cons_of_neg (p := fun x : Task => x.id == tid) _ hy]
      exact ih h

lemma find?_filter_ne_none (l : List Task) (tid : Nat) :
    (l.filter (fun x => x.id != tid)).find? (fun x => x.id == tid) = none := by
  rw [List.find?_eq_none]
  intro x hx
  have hpx := List.of_mem_filter hx
  simp only [bne_iff_ne, ne_eq] at hpx
  simp [hpx]

lemma contains_teamAdd (st : St) (p : Project) (ids : List Nat) (u : Nat)
    (h : p.teamMembers.contains u = true) :
    ((teamAdd st p ids).1).teamMembers.contains u = true := by
  simp only [teamAdd, List.contains, List.elem_eq_mem, decide_eq_true_eq,
    List.mem_append] at h ⊢
  exact Or.inl h

lemma teamAdd_createdBy (st : St) (p : Project) (ids : List Nat) :
    ((teamAdd st p ids).1).createdBy = p.createdBy := rfl

lemma contains_teamAdd_self (st : St) (p : Project) (u : Nat) :
    ((teamAdd st p [u]).1).teamMembers.contains u = true := by
  simp only [teamAdd, List.contains, List.elem_eq_mem, decide_eq_true_eq,
    List.mem_append]
  by_cases h : u ∈ p.teamMembers
  · exact Or.inl h
  · right
    simp [List.mem_filter, List.contains, h]

lemma contains_teamRemove (st : St) (p : Project) (ids : List Nat) (u : Nat)
    (h : p.teamMembers.contains u = true) (hni : ids.contains u = false) :
    ((teamRemove st p ids).1).teamMembers.contains u = true := by
  simp only [teamRemove, List.contains, List.elem_eq_mem, decide_eq_true_eq] at h ⊢
  simp only [List.mem_filter]
  refine ⟨h, ?_⟩
  simp [List.contains] at hni
  simp [List.contains, hni]

lemma contains_mem {l : List Nat} {a : Nat} (h : l.contains a = true) : a ∈ l := by
  simpa [List.contains] using h

lemma contains_mem_str {l : List String} {a : String} (h : l.contains a = true) : a ∈ l := by
  simpa [List.contains] using h

lemma all_updProjects (l : List Project) (pid : Nat) (f : Project → Project)
    (P : Project → Bool) (h : l.all P = true)
    (hf : ∀ p, P p = true → P (f p) = true) :
    (updProjects l pid f).all P = true := by
  simp only [updProjects, List.all_eq_true] at h ⊢
  intro q hq
  obtain ⟨p, hp, rfl⟩ := List.mem_map.mp hq
  by_cases hc : (p.id == pid) = true
  · simp only [if_pos hc]
    exact hf p (h p hp)
  · simp only [if_neg hc]
    exact h p hp

/-- C1: the spec says the change_status table is exactly
TODO to IN_PROGRESS; IN_PROGRESS to IN_REVIEW or TODO; IN_REVIEW to DONE
or IN_PROGRESS; DONE to IN_PROGRESS, every other ordered pair failing
with InvalidTransition.  The validate_status table in the serializer
agrees, but the ChoiceField built from Task.STATUS_CHOICES spells the
model key IN_PROGESS, so a proposed IN_PROGRESS is rejected as an
invalid choice before the transition table is consulted: the three table
transitions whose target is IN_PROGRESS can never succeed, each failing
with a choice ValidationError instead of succeeding as the claim
requires. -/
theorem c1_transitions_into_in_progress_rejected :
    taskStatusValidate "TODO" "IN_PROGRESS"
      = .error (.validationError "\"IN_PROGRESS\" is not a valid choice.") ∧
    taskStatusValidate "IN_REVIEW" "IN_PROGRESS"
      = .error (.validationError "\"IN_PROGRESS\" is not a valid choice.") ∧
    taskStatusValidate "DONE" "IN_PROGRESS"
      = .error (.validationError "\"IN_PROGRESS\" is not a valid choice.") ∧
    allowedTransition "TODO" = ["IN_PROGRESS"] ∧
    statusChoices.contains "IN_PROGRESS" = false ∧
    statusChoices.contains "IN_PROGESS" = true := by
  refine ⟨rfl, rfl, rfl, rfl, rfl, rfl⟩
/-- C2 (counterexample): user 2 is a plain team member of the project of
task 1, none of task creator, assignee, project creator, yet the assign
and unassign write actions succeed for user 2 instead of failing with
Forbidden: get_permissions guards only update, partial_update and destroy
with CanModifyTask. -/
theorem c2_plain_member_can_assign :
    canModifyTask ⟨1, "tsk", 1, 1, none, "TODO", "MEDIUM"⟩ ⟨1, "proj", 1, [1, 2]⟩ 2 = false ∧
    findTask stC2 1 = some ⟨1, "tsk", 1, 1, none, "TODO", "MEDIUM"⟩ ∧
    findProject stC2 1 = some ⟨1, "proj", 1, [1, 2]⟩ ∧
    (assignTask stC2 2 1 2).err = none ∧
    (unassignTask stC2 2 1).err = none := by
  refine ⟨rfl, rfl, rfl, rfl, rfl⟩

lemma canModifyTask_iff (t : Task) (p : Project) (u : Nat) :
    canModifyTask t p u = true ↔
      (u = t.createdBy ∨ t.assignedTo = some u ∨ u = p.createdBy) := by
  simp [canModifyTask, or_assoc]

/-- C2 (amended): for an actor who is a member of the task project team,
update, partial_update and destroy are permitted exactly when the actor
is the task creator, the assignee or the project creator, while assign,
unassign and change_status are permitted to every team member; an actor
outside the team fails every action with NotFound (the queryset filter),
not Forbidden. -/
theorem c2_task_write_permission_split (st : St) (actor tid : Nat)
    (act : TaskAction) (t : Task) (p : Project)
    (ht : findTask st tid = some t)
    (hp : findProject st t.projectId = some p)
    (hm : p.teamMembers.contains actor = true) :
    (isWriteCoreAct act = true →
      ((taskAccess st actor tid act).isOk = true ↔
        (actor = t.createdBy ∨ t.assignedTo = some actor ∨ actor = p.createdBy))) ∧
    (isWriteCoreAct act = false → taskAccess st actor tid act = .ok (t, p)) ∧
    (∀ (u2 : Nat) (act2 : TaskAction), p.teamMembers.contains u2 = false →
      taskAccess st u2 tid act2
        = .error (.notFound "No Task matches the given query.")) := by
  have hmem : actor ∈ p.teamMembers := contains_mem hm
  refine ⟨?_, ?_, ?_⟩
  · intro hw
    rw [← canModifyTask_iff t p actor]
    simp only [taskAccess, ht, hp, isTaskProjectMember, hm, hw]
    cases hcm : canModifyTask t p actor <;>
      simp [hcm, Except.isOk, Except.toBool]
  · intro hw
    simp [taskAccess, ht, hp, isTaskProjectMember, hm, hmem, hw]
  · intro u2 act2 h2
    have h2m : u2 ∉ p.teamMembers := by
      intro hc
      rw [show p.teamMembers.contains u2 = true by simpa [List.contains] using hc] at h2
      cases h2
    simp [taskAccess, ht, hp, isTaskProjectMember, h2, h2m]

/-- Witness for the amended C2 at a concrete store: the project creator
(user 1, also task creator here) may update, and a plain member (user 2)
may run change_status. -/
theorem c2_task_write_permission_split_witness :
    ((taskAccess stC2 1 1 .updateAct).isOk = true ↔
      ((1 : Nat) = 1 ∨ (none : Option Nat) = some 1 ∨ (1 : Nat) = 1)) ∧
    taskAccess stC2 2 1 .statusAct
      = .ok (⟨1, "tsk", 1, 1, none, "TODO", "MEDIUM"⟩, ⟨1, "proj", 1, [1, 2]⟩) :=
  ⟨(c2_task_write_permission_split stC2 1 1 .updateAct
      ⟨1, "tsk", 1, 1, none, "TODO", "MEDIUM"⟩ ⟨1, "proj", 1, [1, 2]⟩
      rfl rfl rfl).1 rfl,
   (c2_task_write_permission_split stC2 2 1 .statusAct
      ⟨1, "tsk", 1, 1, none, "TODO", "MEDIUM"⟩ ⟨1, "proj", 1, [1, 2]⟩
      rfl rfl rfl).2.1 rfl⟩
/-- C5: a partial update that carries assigned_to_id but no project_id
reaches Project.objects.get(id=attrs.get(project_id)) with id None inside
TaskCreateUpdateSerializer.validate, and dies with an uncaught
Project.DoesNotExist instead of the ValidationError the claim requires:
this happens both for the non-member user 3 and even for the member
user 2, so the valid assignment cannot be performed on this path either.
The store, in particular assigned_to, is left unchanged. -/
theorem c5_patch_assignee_without_project_crashes :
    updateTask stC5 1 1 ⟨none, none, some 3, none, none⟩
      = ⟨some (.doesNotExist "Project"), stC5⟩ ∧
    updateTask stC5 1 1 ⟨none, none, some 2, none, none⟩
      = ⟨some (.doesNotExist "Project"), stC5⟩ ∧
    (⟨1, "proj", 1, [1, 2]⟩ : Project).teamMembers.contains 3 = false ∧
    (⟨1, "proj", 1, [1, 2]⟩ : Project).teamMembers.contains 2 = true ∧
    findProject stC5 1 = some ⟨1, "proj", 1, [1, 2]⟩ := by
  refine ⟨rfl, rfl, rfl, rfl, rfl⟩

/-- C4: a remove_member call for the creator id, issued by the creator
(any other caller is already rejected by the creator-only permission),
fails with the Cannot-remove-project-creator InvalidOperation and returns
the store exactly unchanged: team_members keeps its value and no Activity
entry is appended. -/
theorem c4_remove_member_creator_rejected (st : St) (actor pid : Nat) (p : Project)
    (hp : findProject st pid = some p)
    (hm : p.teamMembers.contains actor = true)
    (ha : actor = p.createdBy)
    (h0 : p.createdBy ≠ 0) :
    removeMember st actor pid p.createdBy
      = ⟨some (.invalidOperation "Cannot remove project creator"), st⟩ := by
  have hmem : p.createdBy ∈ p.teamMembers := by
    rw [← ha]; exact contains_mem hm
  simp only [removeMember, hp]
  simp [ha, h0, hmem]
/-- Witness for C4 at a concrete store. -/
theorem c4_remove_member_creator_rejected_witness :
    removeMember stC4W 1 1 1
      = ⟨some (.invalidOperation "Cannot remove project creator"), stC4W⟩ :=
  c4_remove_member_creator_rejected stC4W 1 1 ⟨1, "p1", 1, [1]⟩ rfl rfl rfl (by decide)

lemma projInv_of_find (st : St) (pid : Nat) (p : Project)
    (h : projInvariantB st = true) (hp : findProject st pid = some p) :
    p.teamMembers.contains p.createdBy = true := by
  have hmem : p ∈ st.projects :=
    List.mem_of_find?_eq_some (by simpa [findProject] using hp)
  have h2 : st.projects.all (fun q => q.teamMembers.contains q.createdBy) = true := h
  exact List.all_eq_true.mp h2 p hmem

lemma projInv_createProject (st : St) (actor : Nat) (nm : String) (mids : List Nat)
    (h : projInvariantB st = true) :
    projInvariantB (createProject st actor nm mids).st = true := by
  have h2 : st.projects.all (fun q => q.teamMembers.contains q.createdBy) = true := h
  simp only [createProject, projInvariantB]
  rw [List.all_append, Bool.and_eq_true]
  exact ⟨h2, by simp [teamAdd]⟩

lemma projInv_addMember (st : St) (actor pid uid : Nat)
    (h : projInvariantB st = true) :
    projInvariantB (addMember st actor pid uid).st = true := by
  cases hp : findProject st pid with
  | none => simpa [addMember, hp] using h
  | some p =>
    have hpP : p.teamMembers.contains p.createdBy = true := projInv_of_find st pid p h hp
    simp only [addMember, hp]
    split
    · exact h
    split
    · exact h
    split
    · exact h
    split
    · exact h
    simp only [projInvariantB]
    apply all_updProjects
    · simpa [projInvariantB] using h
    · intro q hq
      exact contains_teamAdd st p [uid] p.createdBy hpP

lemma projInv_removeMember (st : St) (actor pid uid : Nat)
    (h : projInvariantB st = true) :
    projInvariantB (removeMember st actor pid uid).st = true := by
  cases hp : findProject st pid with
  | none => simpa [removeMember, hp] using h
  | some p =>
    have hpP : p.teamMembers.contains p.createdBy = true := projInv_of_find st pid p h hp
    simp only [removeMember, hp]
    split
    · exact h
    split
    · exact h
    split
    · exact h
    split
    · exact h
    case isFalse hne =>
    split
    · exact h
    have hneq : uid ≠ p.createdBy := by simpa using hne
    have hni : ([uid].contains p.createdBy) = false := by
      simp only [List.contains, List.elem_eq_mem, List.mem_singleton,
        decide_eq_false_iff_not]
      exact fun hc => hneq hc.symm
    simp only [projInvariantB]
    apply all_updProjects
    · simpa [projInvariantB] using h
    · intro q hq
      exact contains_teamRemove st p [uid] p.createdBy hpP hni

lemma projInv_updateProject (st : St) (actor pid : Nat)
    (onm : Option String) (omids : Option (List Nat))
    (h : projInvariantB st = true) :
    projInvariantB (updateProject st actor pid onm omids).st = true := by
  cases hp : findProject st pid with
  | none => simpa [updateProject, hp] using h
  | some p =>
    have hpP : p.teamMembers.contains p.createdBy = true := projInv_of_find st pid p h hp
    simp only [updateProject, hp]
    split
    · exact h
    split
    · exact h
    cases omids with
    | none =>
      simp only [projInvariantB]
      apply all_updProjects
      · simpa [projInvariantB] using h
      · intro q hq
        exact hpP
    | some ids =>
      simp only [projInvariantB]
      apply all_updProjects
      · simpa [projInvariantB] using h
      · intro q hq
        exact contains_teamAdd_self st _ p.createdBy

/-- C3: the creator-in-team invariant of the spec holds after project
creation (for the new project as well as the old ones) and is preserved
by field updates, team-member-list replacement, add_member and
remove_member. -/
theorem c3_creator_in_team_invariant (st : St) (actor pid uid : Nat)
    (nm : String) (mids : List Nat) (onm : Option String)
    (omids : Option (List Nat))
    (h : projInvariantB st = true) :
    projInvariantB (createProject st actor nm mids).st = true ∧
    projInvariantB (updateProject st actor pid onm omids).st = true ∧
    projInvariantB (addMember st actor pid uid).st = true ∧
    projInvariantB (removeMember st actor pid uid).st = true :=
  ⟨projInv_createProject st actor nm mids h,
   projInv_updateProject st actor pid onm omids h,
   projInv_addMember st actor pid uid h,
   projInv_removeMember st actor pid uid h⟩
/-- Witness for C3 at a concrete store, including a team replacement that
omits the creator (who is silently re-added). -/
theorem c3_creator_in_team_invariant_witness :
    projInvariantB (createProject stC3W 1 "q" [2]).st = true ∧
    projInvariantB (updateProject stC3W 1 1 none (some [2])).st = true ∧
    projInvariantB (addMember stC3W 1 1 2).st = true ∧
    projInvariantB (removeMember stC3W 1 1 2).st = true :=
  c3_creator_in_team_invariant stC3W 1 1 2 "q" [2] none (some [2]) rfl

/-- C7: an authorized task deletion succeeds, appends exactly one Activity
entry with action deleted task for the project the task belonged to, and
the task is gone from subsequent reads while the whole previous activity
log (and the new entry) remains readable. -/
theorem c7_delete_task_logs_once_and_persists (st : St) (actor tid : Nat)
    (t : Task) (p : Project)
    (ht : findTask st tid = some t)
    (hp : findProject st t.projectId = some p)
    (hm : p.teamMembers.contains actor = true)
    (hcm : canModifyTask t p actor = true) :
    (deleteTask st actor tid).err = none ∧
    (deleteTask st actor tid).st.activities
      = st.activities ++ [⟨t.projectId, t.createdBy, "deleted task",
                           "Task " ++ t.title ++ " was deleted"⟩] ∧
    findTask (deleteTask st actor tid).st tid = none := by
  have hmem : actor ∈ p.teamMembers := contains_mem hm
  have hacc : taskAccess st actor tid .destroyAct = .ok (t, p) := by
    simp [taskAccess, ht, hp, isTaskProjectMember, hmem, isWriteCoreAct, hcm]
  refine ⟨?_, ?_, ?_⟩
  · simp [deleteTask, hacc]
  · simp [deleteTask, hacc]
  · simp only [deleteTask, hacc, findTask]
    exact find?_filter_ne_none st.tasks tid
/-- Witness for C7 at a concrete store: the assignee (user 2) deletes the
task. -/
theorem c7_delete_task_logs_once_and_persists_witness :
    (deleteTask stC7W 2 1).st.activities
      = [⟨1, 1, "created task", "Task \"tsk\" created"⟩,
         ⟨1, 1, "deleted task", "Task tsk was deleted"⟩] :=
  ((c7_delete_task_logs_once_and_persists stC7W 2 1
      ⟨1, "tsk", 1, 1, some 2, "TODO", "LOW"⟩
      ⟨1, "p1", 1, [1, 2]⟩ rfl rfl rfl rfl).2.1)

/-- C10: a generic update (PUT or PATCH) carrying only a status value that
is one of the declared model choices stores that status directly, for
every current status, with no transition validation on this path. -/
theorem c10_generic_update_skips_transition_check (st : St) (actor tid : Nat)
    (s : String) (t : Task) (p : Project)
    (ht : findTask st tid = some t)
    (hp : findProject st t.projectId = some p)
    (hm : p.teamMembers.contains actor = true)
    (hcm : canModifyTask t p actor = true)
    (hs : statusChoices.contains s = true) :
    (updateTask st actor tid ⟨none, none, none, some s, none⟩).err = none ∧
    findTask (updateTask st actor tid ⟨none, none, none, some s, none⟩).st tid
      = some { t with status := s } := by
  have hmem : actor ∈ p.teamMembers := contains_mem hm
  have hs2 : s ∈ statusChoices := contains_mem_str hs
  have hacc : taskAccess st actor tid .updateAct = .ok (t, p) := by
    simp [taskAccess, ht, hp, isTaskProjectMember, hmem, isWriteCoreAct, hcm]
  have hval : taskAttrsValidate st actor ⟨none, none, none, some s, none⟩ = .ok () := by
    simp [taskAttrsValidate, validateProjectIdField, validateAssignedField,
          validateChoiceField, choiceValidate, hs2, crossValidate, bind, Except.bind]
  have happ : applyTaskAttrs t ⟨none, none, none, some s, none⟩ = { t with status := s } := by
    simp [applyTaskAttrs]
  refine ⟨?_, ?_⟩
  · simp [updateTask, hacc, hval]
  · simp only [updateTask, hacc, hval, findTask, updTasks]
    have hfind := find?_upd_list st.tasks tid
        (fun _ => applyTaskAttrs t ⟨none, none, none, some s, none⟩) t
        (by rw [happ]) ht
    rw [happ] at hfind
    exact hfind

lemma allActor_delta_keep (st : St) (e : Option TmError) (u : Nat) :
    allActor (actsDelta st ⟨e, st⟩) u = true := by
  rw [actsDelta_keep]; rfl

lemma allActor_delta (st : St) (e : Option TmError) (st2 : St) (l : List Activity)
    (u : Nat) (h : st2.activities = st.activities ++ l)
    (hl : allActor l u = true) :
    allActor (actsDelta st ⟨e, st2⟩) u = true := by
  rw [actsDelta_append st e st2 l h]; exact hl

lemma allActor_teamAdd (st : St) (p : Project) (ids : List Nat) :
    allActor (teamAdd st p ids).2 p.createdBy = true := by
  simp only [teamAdd, allActor, List.all_eq_true]
  intro x hx
  obtain ⟨v, hv, hvx⟩ := List.mem_filterMap.mp hx
  by_cases hc : (v == p.createdBy) = true
  · rw [if_pos hc] at hvx
    cases hvx
  · rw [if_neg hc] at hvx
    obtain rfl : addedActivity st p v = x := by simpa using hvx
    simp [addedActivity]

lemma allActor_teamRemove (st : St) (p : Project) (ids : List Nat) :
    allActor (teamRemove st p ids).2 p.createdBy = true := by
  simp [teamRemove, allActor, List.all_eq_true, removedActivity]

lemma allActor_log (st : St) (u : Nat) (old new : Task) :
    allActor (logTaskChanges st u old new) u = true := by
  simp only [logTaskChanges, allActor, List.all_append, Bool.and_eq_true]
  refine ⟨⟨?_, ?_⟩, ?_⟩ <;> (repeat' split) <;> simp

lemma taskAccess_ok_find (st : St) (actor tid : Nat) (act : TaskAction)
    (tp : Task × Project) (h : taskAccess st actor tid act = .ok tp) :
    findTask st tid = some tp.1 := by
  unfold taskAccess at h
  cases hf : findTask st tid with
  | none =>
    simp only [hf] at h
    exact Except.noConfusion h
  | some t0 =>
    simp only [hf] at h
    cases hq : findProject st t0.projectId with
    | none =>
      simp only [hq] at h
      exact Except.noConfusion h
    | some p0 =>
      simp only [hq] at h
      split at h
      · cases h
      split at h
      · split at h
        · obtain rfl : (t0, p0) = tp := by simpa using h
          rfl
        · cases h
      · obtain rfl : (t0, p0) = tp := by simpa using h
        rfl

lemma actorOnly_createProject (st : St) (actor : Nat) (nm : String) (mids : List Nat) :
    allActor (actsDelta st (createProject st actor nm mids)) actor = true := by
  simp only [createProject]
  apply allActor_delta st none _ _ actor
  · rw [List.append_assoc]
  · simp only [allActor, List.all_append, Bool.and_eq_true]
    exact ⟨by simp [allActor], allActor_teamAdd st _ _⟩

lemma actorOnly_updateProject (st : St) (actor pid : Nat)
    (onm : Option String) (omids : Option (List Nat)) :
    allActor (actsDelta st (updateProject st actor pid onm omids)) actor = true := by
  cases hp : findProject st pid with
  | none => simp only [updateProject, hp]; exact allActor_delta_keep st _ actor
  | some p =>
    simp only [updateProject, hp]
    split
    · exact allActor_delta_keep st _ actor
    split
    · exact allActor_delta_keep st _ actor
    case isFalse hne =>
    have ha2 : actor = p.createdBy := by simpa using hne
    cases omids with
    | none =>
      apply allActor_delta st none _ [] actor
      · simp
      · rfl
    | some ids =>
      apply allActor_delta st none _ _ actor
      · rw [List.append_assoc, List.append_assoc]
      · simp only [allActor, List.all_append, Bool.and_eq_true]
        rw [ha2]
        exact ⟨allActor_teamRemove st _ _,
               allActor_teamAdd st _ _, allActor_teamAdd st _ _⟩

lemma actorOnly_addMember (st : St) (actor pid uid : Nat) :
    allActor (actsDelta st (addMember st actor pid uid)) actor = true := by
  cases hp : findProject st pid with
  | none => simp only [addMember, hp]; exact allActor_delta_keep st _ actor
  | some p =>
    simp only [addMember, hp]
    split
    · exact allActor_delta_keep st _ actor
    split
    · exact allActor_delta_keep st _ actor
    case isFalse hne =>
    have ha2 : actor = p.createdBy := by simpa using hne
    split
    · exact allActor_delta_keep st _ actor
    split
    · exact allActor_delta_keep st _ actor
    apply allActor_delta st none _ _ actor
    · rfl
    · rw [ha2]
      exact allActor_teamAdd st _ _

lemma actorOnly_removeMember (st : St) (actor pid uid : Nat) :
    allActor (actsDelta st (removeMember st actor pid uid)) actor = true := by
  cases hp : findProject st pid with
  | none => simp only [removeMember, hp]; exact allActor_delta_keep st _ actor
  | some p =>
    simp only [removeMember, hp]
    split
    · exact allActor_delta_keep st _ actor
    split
    · exact allActor_delta_keep st _ actor
    case isFalse hne =>
    have ha2 : actor = p.createdBy := by simpa using hne
    split
    · exact allActor_delta_keep st _ actor
    split
    · exact allActor_delta_keep st _ actor
    split
    · exact allActor_delta_keep st _ actor
    apply allActor_delta st none _ _ actor
    · rfl
    · rw [ha2]
      exact allActor_teamRemove st _ _

lemma actorOnly_createTask (st : St) (actor pid : Nat) (ttl : String)
    (aid : Option Nat) (ost opr : Option String) :
    allActor (actsDelta st (createTask st actor pid ttl aid ost opr)) actor = true := by
  simp only [createTask]
  split
  · exact allActor_delta_keep st _ actor
  apply allActor_delta st none _ _ actor
  · rfl
  · simp [allActor]

lemma actorOnly_updateTask (st : St) (actor tid : Nat) (a : TaskUpdateAttrs) :
    allActor (actsDelta st (updateTask st actor tid a)) actor = true := by
  simp only [updateTask]
  split
  · exact allActor_delta_keep st _ actor
  split
  · exact allActor_delta_keep st _ actor
  apply allActor_delta st none _ _ actor
  · rfl
  · exact allActor_log st actor _ _

lemma actorOnly_assignTask (st : St) (actor tid uid : Nat) :
    allActor (actsDelta st (assignTask st actor tid uid)) actor = true := by
  simp only [assignTask]
  split
  · exact allActor_delta_keep st _ actor
  split
  · exact allActor_delta_keep st _ actor
  split
  · exact allActor_delta_keep st _ actor
  apply allActor_delta st none _ _ actor
  · rfl
  · simp [allActor]

lemma actorOnly_unassignTask (st : St) (actor tid : Nat) :
    allActor (actsDelta st (unassignTask st actor tid)) actor = true := by
  simp only [unassignTask]
  split
  · exact allActor_delta_keep st _ actor
  apply allActor_delta st none _ _ actor
  · rfl
  · simp [allActor]

lemma actorOnly_changeStatusTask (st : St) (actor tid : Nat) (sv : String) :
    allActor (actsDelta st (changeStatusTask st actor tid sv)) actor = true := by
  simp only [changeStatusTask]
  split
  · exact allActor_delta_keep st _ actor
  split
  · exact allActor_delta_keep st _ actor
  apply allActor_delta st none _ _ actor
  · rfl
  · simp [allActor]

lemma actorOnly_createComment (st : St) (actor tid : Nat) (txt : String) :
    allActor (actsDelta st (createComment st actor tid txt)) actor = true := by
  simp only [createComment]
  split
  · exact allActor_delta_keep st _ actor
  cases hf : findTask st tid with
  | none => simp only [hf]; exact allActor_delta_keep st _ actor
  | some t =>
    simp only [hf]
    cases hq : findProject st t.projectId with
    | none => simp only [hq]; exact allActor_delta_keep st _ actor
    | some p =>
      simp only [hq]
      split
      · exact allActor_delta_keep st _ actor
      apply allActor_delta st none _ _ actor
      · rfl
      · simp [allActor]

lemma creatorAttr_deleteTask (st : St) (actor tid : Nat) (t : Task)
    (ht : findTask st tid = some t) :
    allActor (actsDelta st (deleteTask st actor tid)) t.createdBy = true := by
  cases hacc : taskAccess st actor tid .destroyAct with
  | error e => simp only [deleteTask, hacc]; exact allActor_delta_keep st _ _
  | ok tp =>
    have hfind := taskAccess_ok_find st actor tid .destroyAct tp hacc
    rw [ht] at hfind
    obtain rfl : t = tp.1 := by simpa using hfind
    simp only [deleteTask, hacc]
    apply allActor_delta st none _ _ tp.1.createdBy
    · rfl
    · simp [allActor]
/-- C9 (counterexample): user 2, the project creator and hence authorized
to delete, deletes task 1 created by user 1; the emitted deleted-task
entry carries user 1 — the task creator — not the acting user 2, because
the pre_delete signal has no access to the request and logs
instance.created_by. -/
theorem c9_deletion_attributed_to_task_creator :
    (deleteTask stC9 2 1).err = none ∧
    (deleteTask stC9 2 1).st.activities
      = [⟨1, 1, "deleted task", "Task tsk was deleted"⟩] ∧
    (1 : Nat) ≠ 2 := by
  refine ⟨rfl, rfl, by decide⟩

/-- C9 (amended): every Activity entry appended by project creation,
project update, member add and remove, task creation, task update,
assign, unassign, change_status and comment creation is attributed to
the acting user; the entry appended by task deletion is attributed to
the deleted task's created_by instead, which can differ from the actor. -/
theorem c9_entries_attributed_to_actor_except_deletion
    (st : St) (actor pid tid uid : Nat) (nm ttl txt sv : String)
    (mids : List Nat) (onm : Option String) (omids : Option (List Nat))
    (aid : Option Nat) (ost opr : Option String) (a : TaskUpdateAttrs)
    (t : Task) (ht : findTask st tid = some t) :
    allActor (actsDelta st (createProject st actor nm mids)) actor = true ∧
    allActor (actsDelta st (updateProject st actor pid onm omids)) actor = true ∧
    allActor (actsDelta st (addMember st actor pid uid)) actor = true ∧
    allActor (actsDelta st (removeMember st actor pid uid)) actor = true ∧
    allActor (actsDelta st (createTask st actor pid ttl aid ost opr)) actor = true ∧
    allActor (actsDelta st (updateTask st actor tid a)) actor = true ∧
    allActor (actsDelta st (assignTask st actor tid uid)) actor = true ∧
    allActor (actsDelta st (unassignTask st actor tid)) actor = true ∧
    allActor (actsDelta st (changeStatusTask st actor tid sv)) actor = true ∧
    allActor (actsDelta st (createComment st actor tid txt)) actor = true ∧
    allActor (actsDelta st (deleteTask st actor tid)) t.createdBy = true :=
  ⟨actorOnly_createProject st actor nm mids,
   actorOnly_updateProject st actor pid onm omids,
   actorOnly_addMember st actor pid uid,
   actorOnly_removeMember st actor pid uid,
   actorOnly_createTask st actor pid ttl aid ost opr,
   actorOnly_updateTask st actor tid a,
   actorOnly_assignTask st actor tid uid,
   actorOnly_unassignTask st actor tid,
   actorOnly_changeStatusTask st actor tid sv,
   actorOnly_createComment st actor tid txt,
   creatorAttr_deleteTask st actor tid t ht⟩

/-- Witness for the amended C9 at a concrete store: the deletion entry is
attributed to the task creator, user 1. -/
theorem c9_entries_attributed_witness :
    allActor (actsDelta stC9 (deleteTask stC9 2 1)) 1 = true :=
  (c9_entries_attributed_to_actor_except_deletion stC9 2 1 1 1 "n" "t" "x" "TODO"
      [] none none none none none ⟨none, none, none, none, none⟩
      ⟨1, "tsk", 1, 1, none, "TODO", "MEDIUM"⟩
      rfl).2.2.2.2.2.2.2.2.2.2
/-- C8 (counterexample): add_member for user 2, who is not the creator
but already a member, succeeds and appends no Activity entry at all —
the m2m add filters already-present ids before the post_add signal — so
the claim that every explicit add_member of a non-creator emits exactly
one added-team-member entry fails. -/
theorem c8_add_existing_member_emits_nothing :
    (addMember stC8 1 1 2).err = none ∧
    (addMember stC8 1 1 2).st.activities = [] ∧
    (⟨1, "proj", 1, [1, 2]⟩ : Project).teamMembers.contains 2 = true ∧
    (2 : Nat) ≠ (⟨1, "proj", 1, [1, 2]⟩ : Project).createdBy := by
  refine ⟨rfl, rfl, rfl, by decide⟩

/-- C8 (amended): at project creation the implicit creator add emits no
added-team-member entry (with no requested members, or with the creator
explicitly requested, the delta is exactly the created-project entry);
an explicit add_member by the creator of an existing non-creator user not
yet on the team appends exactly one added-team-member entry, of a user
already on the team appends none; an explicit remove_member of an
existing non-creator appends exactly one removed-team-member entry. -/
theorem c8_member_change_logging (st : St) (actor pid uid : Nat)
    (nm : String) (p : Project)
    (hp : findProject st pid = some p)
    (hm : p.teamMembers.contains actor = true)
    (ha : actor = p.createdBy)
    (hu : userExists st uid = true)
    (hu0 : uid ≠ 0)
    (hnc : uid ≠ p.createdBy) :
    ((actsDelta st (createProject st actor nm [])).map (fun x => x.action)
        = ["created project"]) ∧
    ((actsDelta st (createProject st actor nm [actor])).map (fun x => x.action)
        = ["created project"]) ∧
    (p.teamMembers.contains uid = false →
      (actsDelta st (addMember st actor pid uid)).map (fun x => x.action)
        = ["added team member"]) ∧
    (p.teamMembers.contains uid = true →
      actsDelta st (addMember st actor pid uid) = []) ∧
    ((actsDelta st (removeMember st actor pid uid)).map (fun x => x.action)
        = ["removed team member"]) := by
  have hcond2 : (actor != p.createdBy) = false := by simp [ha]
  have hcond3 : (uid == 0) = false := by simpa using hu0
  have hcond4 : (uid == p.createdBy) = false := by simpa using hnc
  have hmem : actor ∈ p.teamMembers := contains_mem hm
  refine ⟨?_, ?_, ?_, ?_, ?_⟩
  · have h1 : (createProject st actor nm []).st.activities
        = st.activities ++ [⟨freshId (st.projects.map (fun q => q.id)), actor,
            "created project", "Project \"" ++ nm ++ "\" was created"⟩] := by
      simp [createProject, existingIds, teamAdd]
    simp [actsDelta, h1, List.drop_left]
  · have h2 : (createProject st actor nm [actor]).st.activities
        = st.activities ++ [⟨freshId (st.projects.map (fun q => q.id)), actor,
            "created project", "Project \"" ++ nm ++ "\" was created"⟩] := by
      simp only [createProject, teamAdd]
      simp
      intro v hv
      simp only [existingIds, List.mem_map, List.mem_filter] at hv
      obtain ⟨w, ⟨_, hw⟩, rfl⟩ := hv
      simpa using hw
    simp [actsDelta, h2, List.drop_left]
  · intro hnm
    have hnmem : uid ∉ p.teamMembers := by
      intro hc
      rw [show p.teamMembers.contains uid = true by simpa [List.contains] using hc] at hnm
      cases hnm
    have h3 : (addMember st actor pid uid).st.activities
        = st.activities ++ [addedActivity st p uid] := by
      simp [addMember, hp, hm, hmem, hcond2, hcond3, hu, teamAdd, hnmem, hnc]
    simp [actsDelta, h3, List.drop_left, addedActivity]
  · intro hym
    have hymem : uid ∈ p.teamMembers := contains_mem hym
    have h4 : (addMember st actor pid uid).st.activities = st.activities := by
      simp [addMember, hp, hm, hmem, hcond2, hcond3, hu, teamAdd, hymem]
    simp [actsDelta, h4, List.drop_length]
  · have h5 : (removeMember st actor pid uid).st.activities
        = st.activities ++ [removedActivity st p uid] := by
      simp [removeMember, hp, hm, hmem, hcond2, hcond3, hcond4, hu, teamRemove]
    simp [actsDelta, h5, List.drop_left, removedActivity]
/-- Witness for the amended C8 at a concrete store. -/
theorem c8_member_change_logging_witness :
    (actsDelta stC8W (addMember stC8W 1 1 3)).map (fun x => x.action)
      = ["added team member"] ∧
    (actsDelta stC8W (removeMember stC8W 1 1 3)).map (fun x => x.action)
      = ["removed team member"] :=
  ⟨(c8_member_change_logging stC8W 1 1 3 "q" ⟨1, "p1", 1, [1, 2]⟩
      rfl rfl rfl rfl (by decide) (by decide)).2.2.1 rfl,
   (c8_member_change_logging stC8W 1 1 3 "q" ⟨1, "p1", 1, [1, 2]⟩
      rfl rfl rfl rfl (by decide) (by decide)).2.2.2.2⟩

/-- C6: an authorized update that changes both priority and assigned_to
(and nothing else tracked) appends exactly two Activity entries, one for
the assignment change and one for the priority change, while an update
that changes no tracked field (here: a title-only update) appends none.
The project id is sent along unchanged, as a PUT does. -/
theorem c6_update_logs_per_changed_tracked_field (st : St) (actor tid u : Nat)
    (pr ttl2 : String) (t : Task) (p : Project)
    (ht : findTask st tid = some t)
    (hp : findProject st t.projectId = some p)
    (hm : p.teamMembers.contains actor = true)
    (hcm : canModifyTask t p actor = true)
    (hpid0 : t.projectId ≠ 0)
    (hu : userExists st u = true)
    (humem : p.teamMembers.contains u = true)
    (hu0 : u ≠ 0)
    (hua : t.assignedTo ≠ some u)
    (hprc : priorityChoices.contains pr = true)
    (hprne : t.priority ≠ pr) :
    ((updateTask st actor tid ⟨none, some t.projectId, some u, none, some pr⟩).err = none ∧
     (actsDelta st (updateTask st actor tid ⟨none, some t.projectId, some u, none, some pr⟩)).map
        (fun x => x.action) = ["assigned task", "changed task priority"]) ∧
    ((updateTask st actor tid ⟨some ttl2, none, none, none, none⟩).err = none ∧
     actsDelta st (updateTask st actor tid ⟨some ttl2, none, none, none, none⟩) = []) := by
  have hmem : actor ∈ p.teamMembers := contains_mem hm
  have humem2 : u ∈ p.teamMembers := contains_mem humem
  have hpr2 : pr ∈ priorityChoices := contains_mem_str hprc
  have hacc : taskAccess st actor tid .updateAct = .ok (t, p) := by
    simp [taskAccess, ht, hp, isTaskProjectMember, hmem, isWriteCoreAct, hcm]
  have hval1 : taskAttrsValidate st actor ⟨none, some t.projectId, some u, none, some pr⟩
      = .ok () := by
    simp [taskAttrsValidate, validateProjectIdField, validateAssignedField,
          validateChoiceField, choiceValidate, crossValidate, hp, hmem, hu,
          humem2, hpr2, hu0, bind, Except.bind]
  have hb : (t.projectId != 0) = true := by simpa [bne_iff_ne] using hpid0
  have happ1 : applyTaskAttrs t ⟨none, some t.projectId, some u, none, some pr⟩
      = { t with priority := pr, assignedTo := some u } := by
    simp [applyTaskAttrs, hb]
  have hane : (t.assignedTo != some u) = true := by simpa [bne_iff_ne] using hua
  have hpne : (t.priority != pr) = true := by simpa [bne_iff_ne] using hprne
  have hlog1 : logTaskChanges st actor t { t with priority := pr, assignedTo := some u }
      = [⟨t.projectId, actor, "assigned task",
          "Task " ++ t.title ++ " assigned to " ++ usernameOf st u⟩,
         ⟨t.projectId, actor, "changed task priority",
          "Task " ++ t.title ++ " priority changed from " ++ t.priority ++ " to " ++ pr⟩] := by
    simp [logTaskChanges, hane, hpne]
  refine ⟨⟨?_, ?_⟩, ?_, ?_⟩
  · simp [updateTask, hacc, hval1]
  · have hres : (updateTask st actor tid ⟨none, some t.projectId, some u, none, some pr⟩).st.activities
        = st.activities
          ++ logTaskChanges st actor t
               (applyTaskAttrs t ⟨none, some t.projectId, some u, none, some pr⟩) := by
      simp [updateTask, hacc, hval1]
    simp [actsDelta, hres, List.drop_left, happ1, hlog1]
  · have hval2 : taskAttrsValidate st actor ⟨some ttl2, none, none, none, none⟩ = .ok () := by
      simp [taskAttrsValidate, validateProjectIdField, validateAssignedField,
            validateChoiceField, crossValidate, bind, Except.bind]
    simp [updateTask, hacc, hval2]
  · have hval2 : taskAttrsValidate st actor ⟨some ttl2, none, none, none, none⟩ = .ok () := by
      simp [taskAttrsValidate, validateProjectIdField, validateAssignedField,
            validateChoiceField, crossValidate, bind, Except.bind]
    have happ2 : applyTaskAttrs t ⟨some ttl2, none, none, none, none⟩
        = { t with title := ttl2 } := by
      simp [applyTaskAttrs]
    have hlog2 : logTaskChanges st actor t { t with title := ttl2 } = [] := by
      simp [logTaskChanges]
    have hres2 : (updateTask st actor tid ⟨some ttl2, none, none, none, none⟩).st.activities
        = st.activities := by
      simp [updateTask, hacc, hval2, happ2, hlog2]
    simp [actsDelta, hres2, List.drop_length]
/-- Witness for C6 at a concrete store: assigning user 2 and raising the
priority in one update appends exactly the two expected entries. -/
theorem c6_update_logs_per_changed_tracked_field_witness :
    (actsDelta stC6W (updateTask stC6W 1 1 ⟨none, some 1, some 2, none, some "HIGH"⟩)).map
        (fun x => x.action) = ["assigned task", "changed task priority"] :=
  (c6_update_logs_per_changed_tracked_field stC6W 1 1 2 "HIGH" "t2"
      ⟨1, "tsk", 1, 1, none, "TODO", "MEDIUM"⟩ ⟨1, "p1", 1, [1, 2]⟩
      rfl rfl rfl rfl (by decide) rfl rfl (by decide) (by decide) rfl
      (by decide)).1.2
/-- Witness for C10 at a concrete store: a task in status DONE is moved
straight to TODO by a generic update, a step the transition table
forbids. -/
theorem c10_generic_update_skips_transition_check_witness :
    (updateTask stC10W 1 1 ⟨none, none, none, some "TODO", none⟩).err = none :=
  (c10_generic_update_skips_transition_check stC10W 1 1 "TODO"
      ⟨1, "tsk", 1, 1, none, "DONE", "LOW"⟩ ⟨1, "p1", 1, [1]⟩ rfl rfl rfl rfl rfl).1

end Taskmaster
